import Mathlib

/-!
Verification of the `cozy-fuse` virtual-filesystem adapter
(`src/cozyfuse/couchmount.py`) against its natural-language specification.

The Python module is shallowly embedded: the CouchDB client (`dbutils`,
`self.db.view`), the TTL cache (`cache.Cache`) and the binary cache
(`binarycache.BinaryCache`) are external collaborators whose code is not in
the repository snapshot; they are modelled from the interface contracts the
spec gives for them (sections 4.1-4.3).  Every fallible store interaction is
an `Except Unit` value: `.error ()` stands for a raised Python exception.
Date-string parsing (`get_date`) is abstracted: documents carry an already
parsed `Option Nat` timestamp, since no property under verification depends
on the textual date formats.
-/

namespace CozyFuse

/-! Section: Constants from `errno`, `stat` and the module header -/

/-- Constant `errno.ENOENT`. -/
def ENOENT : Int := 2

/-- Constant `errno.EACCES`. -/
def EACCES : Int := 13

/-- Constant `stat.S_IFDIR` (octal `0o040000`). -/
def S_IFDIR : Nat := 16384

/-- Constant `stat.S_IFREG` (octal `0o100000`). -/
def S_IFREG : Nat := 32768

/-- Constant `ATTR_VALIDITY_PERIOD = datetime.timedelta(seconds=10)`, in seconds. -/
def ATTR_VALIDITY_PERIOD : Nat := 10

/-! Section: `_normalize_path` (couchmount.py lines 623-634)

Python strings are embedded as `String`; `str.split('/')` and
`'/'.join(...)` are reproduced character-exactly on `List Char`. -/

/-- Python `s.split('/')`: split on every `'/'`, keeping empty pieces
(`''.split('/') == ['']`). -/
def splitSlash : List Char → List (List Char)
  | [] => [[]]
  | c :: rest =>
    if c = '/' then [] :: splitSlash rest
    else
      match splitSlash rest with
      | [] => [[c]]
      | h :: t => (c :: h) :: t

/-- Python `'/'.join(parts)`. -/
def joinSlash : List (List Char) → List Char
  | [] => []
  | [p] => p
  | p :: q :: rest => p ++ '/' :: joinSlash (q :: rest)

/-- Body of `_normalize_path` on the character list of the path:
split on `'/'`, drop empty parts, re-join, and prepend `'/'` unless the
result is empty. -/
def normChars (p : List Char) : List Char :=
  let parts := (splitSlash p).filter (fun part => part ≠ [])
  if parts = [] then [] else '/' :: joinSlash parts

/-- Function `_normalize_path(path)`: remove trailing slashes and empty path parts,
e.g. `/home//user/` becomes `/home/user`. -/
def _normalize_path (s : String) : String := String.mk (normChars s.data)

/-! Section: `cache.Cache`

Modelled from the spec: the repository snapshot holds only `couchmount.py`;
the `cache` module it imports is missing.  Spec section 4.1 gives its
contract: `get(key) -> value-or-absent`, `add(key, value)` overwrites any
existing entry and resets its insertion time; a cache built with no TTL
never expires, a cache built with a TTL treats entries older than the TTL
as absent.  Time is an abstract `Nat` clock. -/
structure Cache (α : Type) where
  ttl : Option Nat
  entries : List (String × α × Nat)

/-- Method `Cache.get(key)`: the stored value if present and fresh, else absent. -/
def Cache.get {α : Type} (c : Cache α) (key : String) (now : Nat) : Option α :=
  match c.entries.find? (fun e => e.1 = key) with
  | none => none
  | some (_, v, t) =>
    match c.ttl with
    | none => some v
    | some ttl => if now - t < ttl then some v else none

/-- Method `Cache.add(key, value)`: overwrite any entry under `key` and reset its
insertion time to `now`. -/
def Cache.add {α : Type} (c : Cache α) (key : String) (v : α) (now : Nat) :
    Cache α :=
  { c with entries := (key, v, now) :: c.entries.filter (fun e => e.1 ≠ key) }

/-- Keys currently present in a cache (fresh or stale). -/
def Cache.keys {α : Type} (c : Cache α) : List String :=
  c.entries.map (fun e => e.1)

/-! Section: Document and store model

The backing CouchDB store is an external collaborator (spec section 6):
keyed index queries `file/byFolder`, `folder/byFolder`, `file/byFullPath`,
record fetches `dbutils.get_folder` / `dbutils.get_file`, the disk-space
query and the binary-attachment fetch.  Each is a function of the query
key; `.error ()` models a raised exception during the store interaction. -/

/-- A Folder record as `getattr` reads it: `lastModification` is the parsed
timestamp when the field is present. -/
structure FolderDoc where
  name : String
  lastModification : Option Nat
  deriving DecidableEq, Repr

/-- A File record as `getattr`/`readdir` read it: `size` is absent when the
document has no `size` field (`file_doc.get('size', 4096)`). -/
structure FileDoc where
  name : String
  size : Option Nat
  lastModification : Option Nat
  deriving DecidableEq, Repr

/-- Result of `dbutils.get_disk_space`. -/
structure DiskSpace where
  totalDiskSpace : Nat
  freeDiskSpace : Nat
  deriving DecidableEq, Repr

/-- The backing store's query surface, as used by `couchmount.py`. -/
structure Store where
  fileByFolder : String → Except Unit (List FileDoc)
  folderByFolder : String → Except Unit (List FolderDoc)
  fileByFullPath : String → Except Unit (List FileDoc)
  getFolder : String → Except Unit (Option FolderDoc)
  getFile : String → Except Unit (Option FileDoc)
  getDiskSpace : Except Unit DiskSpace
  binaryContent : String → Except Unit (List Nat)

/-! Section: `CouchStat` (couchmount.py lines 68-85)

`st_uid`/`st_gid` come from `os.getuid()`/`os.getgid()`, ambient process
state; they are threaded in as parameters.  Fields irrelevant to any claim
(`st_ino`, `st_dev`, `st_blocks`, all zero) are kept for fidelity. -/

structure CouchStatT where
  st_mode : Nat
  st_ino : Nat
  st_dev : Nat
  st_nlink : Nat
  st_uid : Nat
  st_gid : Nat
  st_size : Nat
  st_atime : Nat
  st_mtime : Nat
  st_ctime : Nat
  st_blocks : Nat
  deriving DecidableEq, Repr

/-- Constructor `CouchStat.__init__`: the default file descriptor (mode 0, nlink 0,
size 4096, zero timestamps). -/
def CouchStatT.default (uid gid : Nat) : CouchStatT :=
  { st_mode := 0, st_ino := 0, st_dev := 0, st_nlink := 0, st_uid := uid
    st_gid := gid, st_size := 4096, st_atime := 0, st_mtime := 0
    st_ctime := 0, st_blocks := 0 }

/-! Section: Adapter state: the caches owned by `CouchFSDocument.__init__` -/

/-- The mutable state of the adapter: the four `cache.Cache` instances and
the binary content cache (materialized content per path, spec section 4.3). -/
structure FSState where
  attr_cache : Cache CouchStatT
  file_size_cache : Cache Nat
  readdir_file_cache : Cache (List FileDoc)
  readdir_folder_cache : Cache (List FolderDoc)
  binary_cache : List (String × List Nat)

/-- State of the caches right after `CouchFSDocument.__init__`: the file
size cache has no TTL (`cache.Cache()`), the other three use
`ATTR_VALIDITY_PERIOD`; all start empty. -/
def initState : FSState :=
  { attr_cache := ⟨some ATTR_VALIDITY_PERIOD, []⟩
    file_size_cache := ⟨none, []⟩
    readdir_file_cache := ⟨some ATTR_VALIDITY_PERIOD, []⟩
    readdir_folder_cache := ⟨some ATTR_VALIDITY_PERIOD, []⟩
    binary_cache := [] }

/-! Section: `getattr` (couchmount.py lines 174-224)

Python returns either a `CouchStat` object or the integer `-errno.ENOENT`;
the sum is made explicit.  The whole body is wrapped in `try/except`, and
in this model only store interactions can raise, so each store `.error`
maps to the handler's `-errno.ENOENT`.  Note that `getattr` does **not**
call `_normalize_path`, and the root test `path is "/"` is string identity,
which for the interned one-character string `"/"` behaves as equality. -/

/-- Result of `getattr`: a stat record or a negative errno code. -/
inductive GetattrResult where
  | stat (s : CouchStatT)
  | err (code : Int)
  deriving DecidableEq, Repr

/-- Setting `st_atime = get_date(lastModification); st_ctime = st_atime;
st_mtime = st_atime` when the record has a `lastModification` field. -/
def applyTimes (s : CouchStatT) (t : Option Nat) : CouchStatT :=
  match t with
  | none => s
  | some d => { s with st_atime := d, st_ctime := d, st_mtime := d }

/-- Method `getattr(path)`: attribute-cache lookup keyed by the raw `path`;
on a miss, root gets synthetic directory attributes, otherwise the folder
index then the file index is consulted; whatever descriptor results
(including the untouched default when neither index matches) is cached and
returned. -/
def getattr (uid gid : Nat) (st : FSState) (store : Store) (now : Nat)
    (path : String) : GetattrResult × FSState :=
  match st.attr_cache.get path now with
  | some s => (.stat s, st)
  | none =>
    if path = "/" then
      let s := { CouchStatT.default uid gid with
                 st_mode := S_IFDIR ||| 509, st_nlink := 2 }
      (.stat s, { st with attr_cache := st.attr_cache.add path s now })
    else
      match store.getFolder path with
      | .error _ => (.err (-ENOENT), st)
      | .ok (some folder) =>
        let s := applyTimes
          { CouchStatT.default uid gid with
            st_mode := S_IFDIR ||| 509, st_nlink := 2 }
          folder.lastModification
        (.stat s, { st with attr_cache := st.attr_cache.add path s now })
      | .ok none =>
        match store.getFile path with
        | .error _ => (.err (-ENOENT), st)
        | .ok (some f) =>
          let s := applyTimes
            { CouchStatT.default uid gid with
              st_mode := S_IFREG ||| 436, st_nlink := 1
              st_size := f.size.getD 4096 }
            f.lastModification
          (.stat s, { st with attr_cache := st.attr_cache.add path s now })
        | .ok none =>
          let s := CouchStatT.default uid gid
          (.stat s, { st with attr_cache := st.attr_cache.add path s now })

/-! Section: `open` (couchmount.py lines 226-245); named `fsOpen` because
`open` is a Lean keyword -/

/-- Method `open(path, flags)`: normalize, query `file/byFullPath`; `0` when
a record matches, `-errno.ENOENT` otherwise, and `-errno.ENOENT` from the
`except` handler when the query raises.  It touches no cache. -/
def fsOpen (store : Store) (path : String) (flags : Nat) : Int :=
  let np := _normalize_path path
  match store.fileByFullPath np with
  | .ok res => if res.length > 0 then 0 else -ENOENT
  | .error _ => -ENOENT

/-! Section: `readdir` (couchmount.py lines 148-172)

The Python generator yields `.` and `..`, then the file tier, then the
folder tier.  The generator body has no `try/except`: an exception from a
view call propagates to the consumer, modelled as the whole call returning
`.error`. -/

/-- File tier of `readdir`: `readdir_file_cache.get`, on a miss the
`file/byFolder` view, whose result is cached. -/
def fileListing (st : FSState) (store : Store) (now : Nat) (path : String) :
    Except Unit (List FileDoc × FSState) :=
  match st.readdir_file_cache.get path now with
  | some res => .ok (res, st)
  | none =>
    match store.fileByFolder path with
    | .error e => .error e
    | .ok res =>
      .ok (res,
        { st with readdir_file_cache := st.readdir_file_cache.add path res now })

/-- Folder tier of `readdir`: `readdir_folder_cache.get`, on a miss the
`folder/byFolder` view, whose result is cached. -/
def folderListing (st : FSState) (store : Store) (now : Nat) (path : String) :
    Except Unit (List FolderDoc × FSState) :=
  match st.readdir_folder_cache.get path now with
  | some res => .ok (res, st)
  | none =>
    match store.folderByFolder path with
    | .error e => .error e
    | .ok res =>
      .ok (res,
        { st with readdir_folder_cache :=
            st.readdir_folder_cache.add path res now })

/-- Method `readdir(path, offset)`: normalize, yield `.` and `..`, then the
names of the file tier, then the names of the folder tier. -/
def readdir (st : FSState) (store : Store) (now : Nat) (path : String) :
    Except Unit (List String × FSState) :=
  let np := _normalize_path path
  match fileListing st store now np with
  | .error e => .error e
  | .ok (files, st1) =>
    match folderListing st1 store now np with
    | .error e => .error e
    | .ok (folders, st2) =>
      .ok ("." :: ".." ::
            (files.map (fun d => d.name) ++ folders.map (fun d => d.name)),
           st2)

/-! Section: `read` (couchmount.py lines 247-282)

`binarycache.BinaryCache` is modelled from the spec (section 4.3): it maps
a normalized path to materialized content; `is_cached` is membership,
`add` fetches the binary attachment from the store, `get` hands back the
materialized content.  File bytes are `Nat` values; `os.fstat(...).st_size`
is the length of the materialized content. -/

/-- Result of `read`: a byte buffer or a negative errno code. -/
inductive ReadResult where
  | buf (data : List Nat)
  | err (code : Int)
  deriving DecidableEq, Repr

/-- Method `read(path, size, offset)`: materialize the binary if needed,
determine the content length through the no-TTL size cache, clamp
`size` to `content_length - offset` when `offset + size` overruns, read
the clamped range, and return `''` when `offset >= content_length`.  The
body is wrapped in `try/except` returning `-errno.ENOENT`. -/
def read (st : FSState) (store : Store) (now : Nat) (path : String)
    (size offset : Nat) : ReadResult × FSState :=
  let np := _normalize_path path
  let fetched : Except Unit (List Nat × FSState) :=
    match st.binary_cache.lookup np with
    | some content => .ok (content, st)
    | none =>
      match store.binaryContent np with
      | .error e => .error e
      | .ok c => .ok (c, { st with binary_cache := (np, c) :: st.binary_cache })
  match fetched with
  | .error _ => (.err (-ENOENT), st)
  | .ok (content, st1) =>
    let lengthState : Nat × FSState :=
      match st1.file_size_cache.get np now with
      | some len => (len, st1)
      | none =>
        (content.length,
         { st1 with file_size_cache :=
             st1.file_size_cache.add np content.length now })
    let content_length := lengthState.1
    let st2 := lengthState.2
    if offset < content_length then
      let sz := if offset + size > content_length
                then content_length - offset else size
      (.buf ((content.drop offset).take sz), st2)
    else
      (.buf [], st2)

/-! Section: the mutating callbacks (couchmount.py lines 284-558)

Each of `write`, `mknod`, `unlink`, `mkdir`, `rmdir`, `rename` is a stub
whose live body is a single `return errno.EACCES` — the positive integer,
not its negation — with the former implementation commented out.  The store
is threaded through unchanged to make "no backing-store mutation" a stated
fact rather than a typing accident.  `truncate`, `utime`, `fsync`, `chmod`,
`chown` and `release` are live no-ops returning `0`. -/

/-- Method `write(path, buf, offset)`: `return errno.EACCES`. -/
def write (st : FSState) (store : Store) (path : String) (buf : List Nat)
    (offset : Nat) : Int × FSState × Store := (EACCES, st, store)

/-- Method `mknod(path, mode, dev)`: `return errno.EACCES`. -/
def mknod (st : FSState) (store : Store) (path : String) (mode dev : Nat) :
    Int × FSState × Store := (EACCES, st, store)

/-- Method `unlink(path)`: `return errno.EACCES`. -/
def unlink (st : FSState) (store : Store) (path : String) :
    Int × FSState × Store := (EACCES, st, store)

/-- Method `mkdir(path, mode)`: `return errno.EACCES`. -/
def mkdir (st : FSState) (store : Store) (path : String) (mode : Nat) :
    Int × FSState × Store := (EACCES, st, store)

/-- Method `rmdir(path)`: `return errno.EACCES`. -/
def rmdir (st : FSState) (store : Store) (path : String) :
    Int × FSState × Store := (EACCES, st, store)

/-- Method `rename(pathfrom, pathto)`: `return errno.EACCES`. -/
def rename (st : FSState) (store : Store) (pathfrom pathto : String) :
    Int × FSState × Store := (EACCES, st, store)

/-- Method `truncate(path, size)`: `return 0` — a live no-op, not a
permission-denied stub. -/
def truncate (st : FSState) (store : Store) (path : String) (size : Nat) :
    Int × FSState × Store := (0, st, store)

/-- Method `release(path, fuse_file_info)`: `return 0` (the write-back code
after it is unreachable). -/
def release (st : FSState) (store : Store) (path : String) :
    Int × FSState × Store := (0, st, store)

/-! Section: `statfs` (couchmount.py lines 560-596)

No `try/except`: an exception from `dbutils.get_disk_space` propagates.
The Python arithmetic is on floats holding integer values; `Nat` is used. -/

/-- Result record mirroring `fuse.StatVfs`. -/
structure StatVfsT where
  f_bsize : Nat
  f_frsize : Nat
  f_blocks : Nat
  f_bfree : Nat
  f_bavail : Nat
  f_files : Nat
  f_ffree : Nat
  deriving DecidableEq, Repr

/-- Method `statfs()`: quota figures from the disk-space query, block size
1000, file counts 0. -/
def statfs (store : Store) : Except Unit StatVfsT :=
  match store.getDiskSpace with
  | .error e => .error e
  | .ok ds =>
    .ok { f_bsize := 1000, f_frsize := 1000
          f_blocks := ds.totalDiskSpace * 1000 * 1000
          f_bfree := ds.freeDiskSpace * 1000 * 1000
          f_bavail := ds.freeDiskSpace * 1000 * 1000
          f_files := 0, f_ffree := 0 }

/-! Section: concrete stores for witnesses and counterexamples -/

/-- A store with no Folder, File or Binary records; every query succeeds
with an empty result. -/
def emptyStore : Store :=
  { fileByFolder := fun _ => .ok []
    folderByFolder := fun _ => .ok []
    fileByFullPath := fun _ => .ok []
    getFolder := fun _ => .ok none
    getFile := fun _ => .ok none
    getDiskSpace := .ok ⟨0, 0⟩
    binaryContent := fun _ => .ok [] }

/-- A store whose every interaction raises. -/
def failStore : Store :=
  { fileByFolder := fun _ => .error ()
    folderByFolder := fun _ => .error ()
    fileByFullPath := fun _ => .error ()
    getFolder := fun _ => .error ()
    getFile := fun _ => .error ()
    getDiskSpace := .error ()
    binaryContent := fun _ => .error () }

/-- The synthetic root descriptor built by the `path is "/"` branch of
`getattr`: directory mode bits `S_IFDIR | 0o775` and link count 2. -/
def rootStat (uid gid : Nat) : CouchStatT :=
  { CouchStatT.default uid gid with st_mode := S_IFDIR ||| 509, st_nlink := 2 }

/-- Invariant: every attribute-cache entry under the key `"/"` holds the
synthetic root descriptor.  It holds initially (the cache is empty) and is
preserved by every adapter operation, since `getattr` is the only writer of
the attribute cache and under the key `"/"` it only ever stores
`rootStat`. -/
def AttrRootInv (uid gid : Nat) (st : FSState) : Prop :=
  ∀ v t, ("/", v, t) ∈ st.attr_cache.entries → v = rootStat uid gid

/-- A store holding exactly one File record, `a.txt` of size 42 under the
folder `/docs`, and no Folder records. -/
def docStore : Store :=
  { emptyStore with
    fileByFolder := fun p =>
      if p = "/docs" then .ok [⟨"a.txt", some 42, none⟩] else .ok []
    fileByFullPath := fun p =>
      if p = "/docs/a.txt" then .ok [⟨"a.txt", some 42, none⟩] else .ok [] }

/-- An adapter state in which the binary content `[10, 20, 30]` has been
materialized for the normalized path `/f`. -/
def matState : FSState :=
  { initState with binary_cache := [("/f", [10, 20, 30])] }

/-! Section: lemmas about `_normalize_path` -/

/-- Function `splitSlash` never produces the empty list of pieces. -/
theorem splitSlash_ne_nil (cs : List Char) : splitSlash cs ≠ [] := by
  cases cs with
  | nil => simp [splitSlash]
  | cons c rest =>
    by_cases hc : c = '/'
    · simp [splitSlash, hc]
    · simp only [splitSlash, if_neg hc]
      cases splitSlash rest with
      | nil => simp
      | cons h t => simp

/-- No piece produced by `splitSlash` contains the separator. -/
theorem mem_splitSlash_no_slash :
    ∀ (cs : List Char) (p : List Char), p ∈ splitSlash cs → '/' ∉ p := by
  intro cs
  induction cs with
  | nil =>
    intro p hp
    simp [splitSlash] at hp
    simp [hp]
  | cons c rest ih =>
    intro p hp
    by_cases hc : c = '/'
    · simp only [splitSlash, if_pos hc, List.mem_cons] at hp
      rcases hp with h | h
      · simp [h]
      · exact ih p h
    · simp only [splitSlash, if_neg hc] at hp
      cases hsp : splitSlash rest with
      | nil => exact absurd hsp (splitSlash_ne_nil rest)
      | cons h t =>
        rw [hsp] at hp
        rcases List.mem_cons.mp hp with rfl | hmem
        · intro hcontra
          rcases List.mem_cons.mp hcontra with h1 | h1
          · exact hc h1.symm
          · exact ih h (hsp ▸ List.mem_cons_self h t) h1
        · exact ih p (hsp ▸ List.mem_cons_of_mem h hmem)

/-- Splitting a separator-free string yields that one piece. -/
theorem splitSlash_of_no_slash :
    ∀ (cs : List Char), '/' ∉ cs → splitSlash cs = [cs] := by
  intro cs
  induction cs with
  | nil => intro _; rfl
  | cons c rest ih =>
    intro h
    have hc : ¬ c = '/' := fun hx => h (hx ▸ List.mem_cons_self c rest)
    have hrest : '/' ∉ rest := fun hx => h (List.mem_cons_of_mem c hx)
    simp only [splitSlash, if_neg hc, ih hrest]

/-- Splitting `p ++ '/' :: cs` for separator-free `p` peels off `p`. -/
theorem splitSlash_append :
    ∀ (p cs : List Char), '/' ∉ p →
      splitSlash (p ++ '/' :: cs) = p :: splitSlash cs := by
  intro p
  induction p with
  | nil => intro cs _; simp [splitSlash]
  | cons a p' ih =>
    intro cs h
    have ha : ¬ a = '/' := fun hx => h (hx ▸ List.mem_cons_self a p')
    have hp' : '/' ∉ p' := fun hx => h (List.mem_cons_of_mem a hx)
    simp only [List.cons_append, splitSlash, if_neg ha, List.append_eq]
    rw [ih cs hp']

/-- Function `splitSlash` is a left inverse of `joinSlash` on nonempty
lists of separator-free pieces. -/
theorem splitSlash_joinSlash :
    ∀ (parts : List (List Char)), parts ≠ [] →
      (∀ p ∈ parts, '/' ∉ p) → splitSlash (joinSlash parts) = parts
  | [], h, _ => absurd rfl h
  | [p], _, hs => by
      simp only [joinSlash]
      exact splitSlash_of_no_slash p (hs p (by simp))
  | p :: q :: rest, _, hs => by
      have h1 : '/' ∉ p := hs p (by simp)
      rw [joinSlash, splitSlash_append p _ h1,
        splitSlash_joinSlash (q :: rest) (by simp)
          (fun x hx => hs x (List.mem_cons_of_mem p hx))]

/-- Unfolding equation for `normChars`. -/
theorem normChars_eq (q : List Char) :
    normChars q =
      if (splitSlash q).filter (fun part => part ≠ []) = [] then []
      else '/' :: joinSlash ((splitSlash q).filter (fun part => part ≠ [])) :=
  rfl

/-- Body-level idempotence of the normalization. -/
theorem normChars_idem (p : List Char) :
    normChars (normChars p) = normChars p := by
  by_cases hp : (splitSlash p).filter (fun part => part ≠ []) = []
  · have h1 : normChars p = [] := by rw [normChars_eq, if_pos hp]
    rw [h1]
    rfl
  · have hnf : normChars p =
        '/' :: joinSlash ((splitSlash p).filter (fun part => part ≠ [])) := by
      rw [normChars_eq, if_neg hp]
    have hfree : ∀ x ∈ (splitSlash p).filter (fun part => part ≠ []),
        '/' ∉ x := fun x hx =>
      mem_splitSlash_no_slash p x (List.mem_of_mem_filter hx)
    have hsplit : splitSlash (normChars p) =
        [] :: (splitSlash p).filter (fun part => part ≠ []) := by
      rw [hnf]
      show (if ('/' : Char) = '/' then
          [] :: splitSlash (joinSlash
            ((splitSlash p).filter (fun part => part ≠ [])))
        else _) = _
      rw [if_pos rfl, splitSlash_joinSlash _ hp hfree]
    have hfilter : (splitSlash (normChars p)).filter (fun part => part ≠ []) =
        (splitSlash p).filter (fun part => part ≠ []) := by
      rw [hsplit, List.filter_cons_of_neg (by simp)]
      exact List.filter_eq_self.mpr (fun a ha => (List.mem_filter.mp ha).2)
    rw [normChars_eq (normChars p), hfilter, if_neg hp, ← hnf]

/-- A fresh cache hit comes from an entry physically in the cache. -/
theorem Cache.get_mem {α : Type} (c : Cache α) (key : String) (now : Nat)
    (v : α) (h : c.get key now = some v) : ∃ t, (key, v, t) ∈ c.entries := by
  unfold Cache.get at h
  split at h
  · cases h
  · rename_i k v' t hf
    have hmem : (k, v', t) ∈ c.entries := List.mem_of_find?_eq_some hf
    have hkey : k = key := by simpa using List.find?_some hf
    have hv : v' = v := by
      split at h
      · exact Option.some_injective _ h
      · split at h
        · exact Option.some_injective _ h
        · cases h
    exact ⟨t, by rw [← hkey, ← hv]; exact hmem⟩

/-! Section: claim C7 -/

/-- Claim C7: path normalization is idempotent —
`_normalize_path (_normalize_path p) = _normalize_path p` for every string
`p` — and on the concrete inputs of the claim,
`_normalize_path "/a//b/" = "/a/b"` and `_normalize_path "" = ""`. -/
theorem C7_normalize_path_idempotent :
    (∀ p : String,
      _normalize_path (_normalize_path p) = _normalize_path p) ∧
    _normalize_path "/a//b/" = "/a/b" ∧ _normalize_path "" = "" :=
  ⟨fun p => congrArg String.mk (normChars_idem p.data), by decide, by decide⟩

/-! Section: claim C2 -/

/-- Claim C2 counterexample: `write` does deny the operation and leaves all
state unchanged, but the code it returns is the positive integer
`errno.EACCES = 13`, not a negative errno-style code as the claim states. -/
theorem C2_counterexample :
    write initState emptyStore "/x" [] 0 = (13, initState, emptyStore) ∧
    ¬ (13 : Int) < 0 := ⟨rfl, by decide⟩

/-- Claim C2 (amended): each of `write`, `mknod`, `unlink`, `mkdir`,
`rmdir`, `rename` returns the positive value `errno.EACCES` (13) — the
negation is missing — and leaves every cache entry and all backing-store
state unchanged. -/
theorem C2_mutators_denied (st : FSState) (store : Store) (p q : String)
    (buf : List Nat) (offset mode dev : Nat) :
    write st store p buf offset = (EACCES, st, store) ∧
    mknod st store p mode dev = (EACCES, st, store) ∧
    unlink st store p = (EACCES, st, store) ∧
    mkdir st store p mode = (EACCES, st, store) ∧
    rmdir st store p = (EACCES, st, store) ∧
    rename st store p q = (EACCES, st, store) ∧
    0 < EACCES :=
  ⟨rfl, rfl, rfl, rfl, rfl, rfl, by decide⟩

/-! Section: claim C8 -/

/-- Claim C8 counterexample: `truncate` does not fail with the
PermissionDenied outcome; it returns `0` (success), which is neither
`errno.EACCES` nor `-errno.EACCES`. -/
theorem C8_counterexample :
    truncate initState emptyStore "/x" 5 = (0, initState, emptyStore) ∧
    (0 : Int) ≠ EACCES ∧ (0 : Int) ≠ -EACCES :=
  ⟨rfl, by decide, by decide⟩

/-- Claim C8 (amended): `truncate(path, size)` is a live no-op: it returns
`0` (success) for every path and size and does not mutate any cache or
store state. -/
theorem C8_truncate_noop (st : FSState) (store : Store) (p : String)
    (size : Nat) : truncate st store p size = (0, st, store) := rfl

/-! Section: claim C9 -/

/-- Claim C9 counterexample: `getattr` performs its attribute-cache
insertion under the raw input path, not its normalized form: after
`getattr("/a//b/")` the only attribute-cache key is `"/a//b/"`, which
differs from `_normalize_path "/a//b/" = "/a/b"`. -/
theorem C9_counterexample :
    (getattr 0 0 initState emptyStore 0 "/a//b/").2.attr_cache.keys =
      ["/a//b/"] ∧
    _normalize_path "/a//b/" ≠ "/a//b/" :=
  ⟨rfl, by decide⟩

/-! Section: claim C5 -/

/-- Helper: `getattr` — the only writer of the attribute cache — preserves
the root-descriptor invariant: under the key `"/"` it only ever stores
`rootStat`. -/
theorem getattr_preserves_AttrRootInv (uid gid : Nat) (st : FSState)
    (store : Store) (now : Nat) (path : String)
    (hinv : AttrRootInv uid gid st) :
    AttrRootInv uid gid (getattr uid gid st store now path).2 := by
  unfold getattr
  split
  · exact hinv
  · rename_i hget
    by_cases hroot : path = "/"
    · subst hroot
      rw [if_pos rfl]
      intro v t hmem
      simp only [Cache.add, List.mem_cons] at hmem
      rcases hmem with h | h
      · exact (congrArg (fun e : String × CouchStatT × Nat => e.2.1) h).trans
          rfl
      · exact hinv v t (List.mem_of_mem_filter h)
    · rw [if_neg hroot]
      have hadd : ∀ s : CouchStatT, AttrRootInv uid gid
          { st with attr_cache := st.attr_cache.add path s now } := by
        intro s v t hmem
        simp only [Cache.add, List.mem_cons] at hmem
        rcases hmem with h | h
        · exact absurd
            ((congrArg (fun e : String × CouchStatT × Nat => e.1) h).symm)
            hroot
        · exact hinv v t (List.mem_of_mem_filter h)
      split
      · exact hinv
      · exact hadd _
      · split
        · exact hinv
        · exact hadd _
        · exact hadd _

/-- Claim C5: under the root-descriptor invariant on the attribute cache,
`getattr("/")` returns the synthetic root descriptor — directory mode bits
set, link count 2 — for every backing store, and issues no store query:
its result is identical for any two stores. -/
theorem C5_getattr_root (uid gid : Nat) (st : FSState)
    (store store2 : Store) (now : Nat) (hinv : AttrRootInv uid gid st) :
    getattr uid gid st store now "/" = getattr uid gid st store2 now "/" ∧
    (getattr uid gid st store now "/").1 = .stat (rootStat uid gid) ∧
    Nat.land (rootStat uid gid).st_mode S_IFDIR = S_IFDIR ∧
    (rootStat uid gid).st_nlink = 2 := by
  refine ⟨?_, ?_, ?_, rfl⟩
  · unfold getattr
    cases hget : st.attr_cache.get "/" now with
    | some s => rfl
    | none => rfl
  · unfold getattr
    cases hget : st.attr_cache.get "/" now with
    | some s =>
      obtain ⟨t, hmem⟩ := Cache.get_mem _ _ _ _ hget
      have := hinv s t hmem
      simp [this, rootStat]
    | none => rfl
  · show Nat.land (S_IFDIR ||| 509) S_IFDIR = S_IFDIR
    decide

/-- Claim C5 witness: the theorem applied at the initial (empty) cache
state, comparing the empty store against the all-failing store. -/
theorem C5_getattr_root_witness :
    getattr 0 0 initState emptyStore 0 "/" =
      getattr 0 0 initState failStore 0 "/" ∧
    (getattr 0 0 initState emptyStore 0 "/").1 = .stat (rootStat 0 0) ∧
    Nat.land (rootStat 0 0).st_mode S_IFDIR = S_IFDIR ∧
    (rootStat 0 0).st_nlink = 2 :=
  C5_getattr_root 0 0 initState emptyStore failStore 0
    (fun v t h => absurd h (List.not_mem_nil _))

/-! Section: claim C1 -/

/-- Claim C1 counterexample: with a store holding no Folder and no File
record anywhere, `open` on `/missing` returns `-errno.ENOENT` but
`getattr` does not: it returns the untouched default descriptor. -/
theorem C1_counterexample :
    fsOpen emptyStore "/missing" 0 = -ENOENT ∧
    (getattr 0 0 initState emptyStore 0 "/missing").1 =
      .stat (CouchStatT.default 0 0) ∧
    (getattr 0 0 initState emptyStore 0 "/missing").1 ≠
      .err (-ENOENT) := by
  refine ⟨rfl, rfl, ?_⟩
  decide

/-- Claim C1 (amended): for a path with no matching Folder or File record,
`open` returns `-errno.ENOENT`, but `getattr` instead returns — and caches
under the raw path — the default descriptor with mode 0; `getattr` yields
`-errno.ENOENT` only when the store interaction raises. -/
theorem C1_missing_path (uid gid : Nat) (st : FSState) (store : Store)
    (now : Nat) (path : String) (flags : Nat)
    (hcache : st.attr_cache.get path now = none)
    (hroot : path ≠ "/")
    (hfolder : store.getFolder path = .ok none)
    (hfile : store.getFile path = .ok none)
    (hfull : store.fileByFullPath (_normalize_path path) = .ok []) :
    fsOpen store path flags = -ENOENT ∧
    getattr uid gid st store now path =
      (.stat (CouchStatT.default uid gid),
       { st with attr_cache :=
           st.attr_cache.add path (CouchStatT.default uid gid) now }) := by
  constructor
  · simp only [fsOpen]
    rw [hfull]
    rfl
  · unfold getattr
    rw [hcache, if_neg hroot, hfolder, hfile]

/-- Claim C1 witness: the amended theorem applied to the empty store and
the initial cache state at the path `/missing`. -/
theorem C1_missing_path_witness :
    fsOpen emptyStore "/missing" 0 = -ENOENT ∧
    getattr 0 0 initState emptyStore 0 "/missing" =
      (.stat (CouchStatT.default 0 0),
       { initState with attr_cache :=
           initState.attr_cache.add "/missing" (CouchStatT.default 0 0) 0 }) :=
  C1_missing_path 0 0 initState emptyStore 0 "/missing" 0 rfl
    (by decide) rfl rfl rfl

/-! Section: structural lemmas about `readdir` -/

/-- Keys after a cache insertion are the new key plus old keys. -/
theorem Cache.keys_add {α : Type} (c : Cache α) (k : String) (v : α)
    (now : Nat) : (c.add k v now).keys ⊆ k :: c.keys := by
  intro x hx
  simp only [Cache.add, Cache.keys, List.map_cons, List.mem_cons] at hx ⊢
  rcases hx with h | h
  · exact Or.inl h
  · obtain ⟨e, he, rfl⟩ := List.mem_map.mp h
    exact Or.inr (List.mem_map.mpr ⟨e, List.mem_of_mem_filter he, rfl⟩)

/-- The file tier of `readdir` either hits its cache and leaves the state
alone, or misses, queries `file/byFolder` and records the result. -/
theorem fileListing_cases (st : FSState) (store : Store) (now : Nat)
    (p : String) (files : List FileDoc) (st1 : FSState)
    (h : fileListing st store now p = .ok (files, st1)) :
    (st.readdir_file_cache.get p now = some files ∧ st1 = st) ∨
    (st.readdir_file_cache.get p now = none ∧
     store.fileByFolder p = .ok files ∧
     st1 = { st with readdir_file_cache :=
               st.readdir_file_cache.add p files now }) := by
  unfold fileListing at h
  split at h
  · rename_i res hres
    injection h with h'
    injection h' with hf hs
    subst hf
    exact Or.inl ⟨hres, hs.symm⟩
  · rename_i hres
    split at h
    · cases h
    · rename_i res hview
      injection h with h'
      injection h' with hf hs
      subst hf
      exact Or.inr ⟨hres, hview, hs.symm⟩

/-- The folder tier of `readdir`, same shape as the file tier. -/
theorem folderListing_cases (st : FSState) (store : Store) (now : Nat)
    (p : String) (folders : List FolderDoc) (st1 : FSState)
    (h : folderListing st store now p = .ok (folders, st1)) :
    (st.readdir_folder_cache.get p now = some folders ∧ st1 = st) ∨
    (st.readdir_folder_cache.get p now = none ∧
     store.folderByFolder p = .ok folders ∧
     st1 = { st with readdir_folder_cache :=
               st.readdir_folder_cache.add p folders now }) := by
  unfold folderListing at h
  split at h
  · rename_i res hres
    injection h with h'
    injection h' with hf hs
    subst hf
    exact Or.inl ⟨hres, hs.symm⟩
  · rename_i hres
    split at h
    · cases h
    · rename_i res hview
      injection h with h'
      injection h' with hf hs
      subst hf
      exact Or.inr ⟨hres, hview, hs.symm⟩

/-- Decomposition of a successful `readdir`: a file tier over the
normalized path, then a folder tier, the entries being `.`, `..`, the file
names, then the folder names. -/
theorem readdir_cases (st : FSState) (store : Store) (now : Nat)
    (path : String) (r : List String) (st2 : FSState)
    (h : readdir st store now path = .ok (r, st2)) :
    ∃ files folders st1,
      fileListing st store now (_normalize_path path) = .ok (files, st1) ∧
      folderListing st1 store now (_normalize_path path) =
        .ok (folders, st2) ∧
      r = "." :: ".." ::
        (files.map (fun d => d.name) ++ folders.map (fun d => d.name)) := by
  simp only [readdir] at h
  split at h
  · cases h
  · rename_i files st1 hfl
    split at h
    · cases h
    · rename_i folders stx hfo
      injection h with h'
      injection h' with hr hs
      subst hr
      subst hs
      exact ⟨files, folders, st1, hfl, hfo, rfl⟩

/-- The file tier never touches the folder-listing cache. -/
theorem fileListing_folder_cache (st : FSState) (store : Store) (now : Nat)
    (p : String) (files : List FileDoc) (st1 : FSState)
    (h : fileListing st store now p = .ok (files, st1)) :
    st1.readdir_folder_cache = st.readdir_folder_cache := by
  rcases fileListing_cases _ _ _ _ _ _ h with ⟨_, h1⟩ | ⟨_, _, h1⟩ <;>
    rw [h1]

/-! Section: claim C6 -/

/-- Claim C6: every entry sequence produced by a successful `readdir` is
`.`, `..`, then the names of the File records whose parent is the
normalized path, then the names of the Folder records with that parent, in
that tier order — each tier taken from its own TTL cache when fresh, else
straight from the store's view. -/
theorem C6_readdir_order (st : FSState) (store : Store) (now : Nat)
    (path : String) (r : List String) (st2 : FSState)
    (h : readdir st store now path = .ok (r, st2)) :
    ∃ files folders,
      r = "." :: ".." ::
        (files.map (fun d => d.name) ++ folders.map (fun d => d.name)) ∧
      (st.readdir_file_cache.get (_normalize_path path) now = some files ∨
        (st.readdir_file_cache.get (_normalize_path path) now = none ∧
         store.fileByFolder (_normalize_path path) = .ok files)) ∧
      (st.readdir_folder_cache.get (_normalize_path path) now =
          some folders ∨
        (st.readdir_folder_cache.get (_normalize_path path) now = none ∧
         store.folderByFolder (_normalize_path path) = .ok folders)) := by
  obtain ⟨files, folders, st1, hfl, hfo, hr⟩ := readdir_cases _ _ _ _ _ _ h
  have hfold := fileListing_folder_cache _ _ _ _ _ _ hfl
  refine ⟨files, folders, hr, ?_, ?_⟩
  · rcases fileListing_cases _ _ _ _ _ _ hfl with ⟨hc, _⟩ | ⟨hc, hv, _⟩
    · exact Or.inl hc
    · exact Or.inr ⟨hc, hv⟩
  · rcases folderListing_cases _ _ _ _ _ _ hfo with ⟨hc, _⟩ | ⟨hc, hv, _⟩
    · exact Or.inl (hfold ▸ hc)
    · exact Or.inr ⟨hfold ▸ hc, hv⟩

/-- Claim C6 witness: the theorem applied to `readdir("/docs")` against
the store whose only record is the file `a.txt` under `/docs`. -/
theorem C6_readdir_order_witness :
    ∃ files folders,
      ([".", "..", "a.txt"] : List String) = "." :: ".." ::
        (files.map (fun d => d.name) ++ folders.map (fun d => d.name)) ∧
      (initState.readdir_file_cache.get (_normalize_path "/docs") 0 =
          some files ∨
        (initState.readdir_file_cache.get (_normalize_path "/docs") 0 =
            none ∧
         docStore.fileByFolder (_normalize_path "/docs") = .ok files)) ∧
      (initState.readdir_folder_cache.get (_normalize_path "/docs") 0 =
          some folders ∨
        (initState.readdir_folder_cache.get (_normalize_path "/docs") 0 =
            none ∧
         docStore.folderByFolder (_normalize_path "/docs") =
           .ok folders)) :=
  C6_readdir_order initState docStore 0 "/docs" [".", "..", "a.txt"] _ rfl

/-! Section: claim C10 -/

/-- Claim C10: `readdir` never reports non-existence: every successful
result begins with the `.` and `..` entries, and when both listings for
the path are empty — in particular for a path with no matching Folder or
File record anywhere in the store — the result is exactly `[".", ".."]`. -/
theorem C10_readdir_total (st : FSState) (store : Store) (now : Nat)
    (path : String) (r : List String) (st2 : FSState)
    (h : readdir st store now path = .ok (r, st2)) :
    r.take 2 = [".", ".."] ∧
    (st.readdir_file_cache.get (_normalize_path path) now = none →
     st.readdir_folder_cache.get (_normalize_path path) now = none →
     store.fileByFolder (_normalize_path path) = .ok [] →
     store.folderByFolder (_normalize_path path) = .ok [] →
     r = [".", ".."]) := by
  obtain ⟨files, folders, st1, hfl, hfo, hr⟩ := readdir_cases _ _ _ _ _ _ h
  have hfold := fileListing_folder_cache _ _ _ _ _ _ hfl
  constructor
  · rw [hr]; rfl
  · intro hfc hoc hfv hov
    have hfiles : files = [] := by
      rcases fileListing_cases _ _ _ _ _ _ hfl with ⟨hc, _⟩ | ⟨_, hv, _⟩
      · rw [hfc] at hc; cases hc
      · exact Except.ok.inj (hv.symm.trans hfv)
    have hfolders : folders = [] := by
      rcases folderListing_cases _ _ _ _ _ _ hfo with ⟨hc, _⟩ | ⟨_, hv, _⟩
      · rw [hfold, hoc] at hc; cases hc
      · exact Except.ok.inj (hv.symm.trans hov)
    rw [hr, hfiles, hfolders]
    rfl

/-- Claim C10 witness: the theorem applied to `readdir("/nothing")`
against the record-free store. -/
theorem C10_readdir_total_witness :
    ([".", ".."] : List String).take 2 = [".", ".."] ∧
    (initState.readdir_file_cache.get (_normalize_path "/nothing") 0 =
        none →
     initState.readdir_folder_cache.get (_normalize_path "/nothing") 0 =
        none →
     emptyStore.fileByFolder (_normalize_path "/nothing") = .ok [] →
     emptyStore.folderByFolder (_normalize_path "/nothing") = .ok [] →
     ([".", ".."] : List String) = [".", ".."]) :=
  C10_readdir_total initState emptyStore 0 "/nothing" [".", ".."] _ rfl

/-! Section: claim C4 -/

/-- Claim C4 counterexample: with a store whose every interaction raises,
`readdir` and `statfs` do not return the NotFound code: the exception
propagates out of the adapter uncaught. -/
theorem C4_counterexample :
    readdir initState failStore 0 "/x" = .error () ∧
    statfs failStore = .error () := ⟨rfl, rfl⟩

/-- Claim C4 (amended): `getattr`, `open` and `read` catch a raised store
exception and collapse it to `-errno.ENOENT`, but `readdir` and `statfs`
have no handler: a raised store exception propagates to the caller. -/
theorem C4_exception_boundary (uid gid : Nat) (st : FSState)
    (store : Store) (now : Nat) (path : String) (flags size offset : Nat)
    (hcacheA : st.attr_cache.get path now = none)
    (hroot : path ≠ "/")
    (hfolder : store.getFolder path = .error ())
    (hfull : store.fileByFullPath (_normalize_path path) = .error ())
    (hnomat : st.binary_cache.lookup (_normalize_path path) = none)
    (hbin : store.binaryContent (_normalize_path path) = .error ())
    (hfcache : st.readdir_file_cache.get (_normalize_path path) now = none)
    (hfview : store.fileByFolder (_normalize_path path) = .error ())
    (hdisk : store.getDiskSpace = .error ()) :
    getattr uid gid st store now path = (.err (-ENOENT), st) ∧
    fsOpen store path flags = -ENOENT ∧
    read st store now path size offset = (.err (-ENOENT), st) ∧
    readdir st store now path = .error () ∧
    statfs store = .error () := by
  refine ⟨?_, ?_, ?_, ?_, ?_⟩
  · unfold getattr
    rw [hcacheA, if_neg hroot, hfolder]
  · simp only [fsOpen]
    rw [hfull]
  · simp only [read]
    rw [hnomat, hbin]
  · simp only [readdir]
    unfold fileListing
    rw [hfcache, hfview]
  · unfold statfs
    rw [hdisk]

/-- Claim C4 witness: the amended theorem applied to the all-failing store
with the initial cache state. -/
theorem C4_exception_boundary_witness :
    getattr 0 0 initState failStore 0 "/x" = (.err (-ENOENT), initState) ∧
    fsOpen failStore "/x" 0 = -ENOENT ∧
    read initState failStore 0 "/x" 4 0 = (.err (-ENOENT), initState) ∧
    readdir initState failStore 0 "/x" = .error () ∧
    statfs failStore = .error () :=
  C4_exception_boundary 0 0 initState failStore 0 "/x" 0 4 0 rfl
    (by decide) rfl rfl rfl rfl rfl rfl rfl

/-! Section: claim C3 -/

/-- Claim C3: for a path whose binary content is materialized with length
`content.length`, with a size cache consistent with that content, `read`
returns an empty buffer when `offset ≥ content.length`; exactly
`content.length - offset` bytes when `offset < content.length` and the
request overruns; exactly `size` bytes otherwise; and never more bytes
than the clamped range `[offset, min (offset + size) content.length)`. -/
theorem C3_read_clamped (st : FSState) (store : Store) (now : Nat)
    (path : String) (size offset : Nat) (content : List Nat)
    (hmat : st.binary_cache.lookup (_normalize_path path) = some content)
    (hsize : ∀ L,
      st.file_size_cache.get (_normalize_path path) now = some L →
      L = content.length) :
    ∃ b st2, read st store now path size offset = (.buf b, st2) ∧
      (content.length ≤ offset → b = []) ∧
      (offset < content.length → content.length < offset + size →
        b.length = content.length - offset) ∧
      (offset < content.length → offset + size ≤ content.length →
        b.length = size) ∧
      b.length ≤ min (offset + size) content.length - offset := by
  have hlen : ∀ sz : Nat, ((content.drop offset).take sz).length
      = min sz (content.length - offset) := by
    intro sz
    simp [List.length_take, List.length_drop]
  simp only [read, hmat]
  cases hL : st.file_size_cache.get (_normalize_path path) now with
  | none =>
    simp only [hL]
    by_cases ho : offset < content.length
    · simp only [if_pos ho]
      refine ⟨_, _, rfl, ?_, ?_, ?_, ?_⟩
      · intro hle; exact absurd hle (by omega)
      · intro _ hlt
        rw [hlen]
        split <;> omega
      · intro _ hle
        rw [hlen]
        split <;> omega
      · rw [hlen]
        split <;> omega
    · simp only [if_neg ho]
      refine ⟨[], _, rfl, ?_, ?_, ?_, ?_⟩
      · intro _; rfl
      · intro hlt _; exact absurd hlt ho
      · intro hlt _; exact absurd hlt ho
      · simp
  | some L =>
    have hLc := hsize L hL
    subst hLc
    simp only [hL]
    by_cases ho : offset < content.length
    · simp only [if_pos ho]
      refine ⟨_, _, rfl, ?_, ?_, ?_, ?_⟩
      · intro hle; exact absurd hle (by omega)
      · intro _ hlt
        rw [hlen]
        split <;> omega
      · intro _ hle
        rw [hlen]
        split <;> omega
      · rw [hlen]
        split <;> omega
    · simp only [if_neg ho]
      refine ⟨[], _, rfl, ?_, ?_, ?_, ?_⟩
      · intro _; rfl
      · intro hlt _; exact absurd hlt ho
      · intro hlt _; exact absurd hlt ho
      · simp

/-- Claim C3 witness: the theorem applied to the state holding the
3-byte materialized content `[10, 20, 30]` at `/f`, reading 100 bytes
from offset 1 (the clamp to 2 bytes). -/
theorem C3_read_clamped_witness :
    ∃ b st2,
      read matState emptyStore 0 "/f" 100 1 = (.buf b, st2) ∧
      (([10, 20, 30] : List Nat).length ≤ 1 → b = []) ∧
      (1 < ([10, 20, 30] : List Nat).length →
        ([10, 20, 30] : List Nat).length < 1 + 100 →
        b.length = ([10, 20, 30] : List Nat).length - 1) ∧
      (1 < ([10, 20, 30] : List Nat).length →
        1 + 100 ≤ ([10, 20, 30] : List Nat).length →
        b.length = 100) ∧
      b.length ≤ min (1 + 100) ([10, 20, 30] : List Nat).length - 1 :=
  C3_read_clamped matState emptyStore 0 "/f" 100 1 [10, 20, 30] rfl
    (fun L h => by simp [matState, initState, Cache.get] at h)

/-! Section: claim C9 (amended part) -/

/-- The folder tier never touches the file-listing cache. -/
theorem folderListing_file_cache (st : FSState) (store : Store) (now : Nat)
    (p : String) (folders : List FolderDoc) (st1 : FSState)
    (h : folderListing st store now p = .ok (folders, st1)) :
    st1.readdir_file_cache = st.readdir_file_cache := by
  rcases folderListing_cases _ _ _ _ _ _ h with ⟨_, h1⟩ | ⟨_, _, h1⟩ <;>
    rw [h1]

/-- Keys reachable in the attribute cache after `getattr`: the old keys
plus, possibly, the raw (un-normalized) input path. -/
theorem getattr_keys (uid gid : Nat) (st : FSState) (store : Store)
    (now : Nat) (path : String) (g : GetattrResult) (st4 : FSState)
    (h : getattr uid gid st store now path = (g, st4)) :
    st4.attr_cache.keys ⊆ path :: st.attr_cache.keys := by
  have hsub : ∀ s : CouchStatT,
      ({ st with attr_cache := st.attr_cache.add path s now }
        : FSState).attr_cache.keys ⊆ path :: st.attr_cache.keys :=
    fun s => Cache.keys_add _ _ _ _
  simp only [getattr] at h
  split at h
  · injection h with h1 h2
    subst h2
    exact List.subset_cons_self _ _
  · split at h
    · injection h with h1 h2
      subst h2
      exact hsub _
    · split at h
      · injection h with h1 h2
        subst h2
        exact List.subset_cons_self _ _
      · injection h with h1 h2
        subst h2
        exact hsub _
      · split at h
        · injection h with h1 h2
          subst h2
          exact List.subset_cons_self _ _
        · injection h with h1 h2
          subst h2
          exact hsub _
        · injection h with h1 h2
          subst h2
          exact hsub _

/-- Keys reachable in the size cache and the binary cache after `read`:
the old keys plus, possibly, the normalized path. -/
theorem read_keys (st : FSState) (store : Store) (now : Nat)
    (path : String) (size offset : Nat) (rr : ReadResult) (st3 : FSState)
    (h : read st store now path size offset = (rr, st3)) :
    st3.file_size_cache.keys ⊆
      _normalize_path path :: st.file_size_cache.keys ∧
    st3.binary_cache.map (fun e => e.1) ⊆
      _normalize_path path :: st.binary_cache.map (fun e => e.1) := by
  simp only [read] at h
  split at h
  · injection h with h1 h2
    subst h2
    exact ⟨List.subset_cons_self _ _, List.subset_cons_self _ _⟩
  · rename_i content st1 heq
    have hst1 : st1.file_size_cache = st.file_size_cache ∧
        st1.binary_cache.map (fun e => e.1) ⊆
          _normalize_path path :: st.binary_cache.map (fun e => e.1) := by
      split at heq
      · injection heq with h'
        injection h' with hf hs
        subst hs
        exact ⟨rfl, List.subset_cons_self _ _⟩
      · split at heq
        · cases heq
        · injection heq with h'
          injection h' with hf hs
          subst hs
          exact ⟨rfl, by simp only [List.map_cons]; exact fun x hx => hx⟩
    obtain ⟨hfs, hbc⟩ := hst1
    cases hsz : st1.file_size_cache.get (_normalize_path path) now with
    | some L =>
      simp only [hsz] at h
      split at h <;>
      · injection h with h1 h2
        subst h2
        refine ⟨?_, hbc⟩
        show st1.file_size_cache.keys ⊆
          _normalize_path path :: st.file_size_cache.keys
        rw [hfs]
        exact List.subset_cons_self _ _
    | none =>
      simp only [hsz] at h
      split at h <;>
      · injection h with h1 h2
        subst h2
        refine ⟨?_, ?_⟩
        · show (st1.file_size_cache.add
              (_normalize_path path) content.length now).keys ⊆
            _normalize_path path :: st.file_size_cache.keys
          rw [← hfs]
          exact Cache.keys_add _ _ _ _
        · exact hbc

/-- Claim C9 (amended): `readdir` and `read` key every cache insertion by
the normalized path, while `getattr` keys its attribute-cache insertions
by the raw input path as passed. -/
theorem C9_cache_keys (st : FSState) (store : Store) (now : Nat)
    (path : String) (uid gid size offset : Nat)
    (r : List String) (st2 : FSState) (rr : ReadResult) (st3 : FSState)
    (g : GetattrResult) (st4 : FSState)
    (hr : readdir st store now path = .ok (r, st2))
    (hd : read st store now path size offset = (rr, st3))
    (hg : getattr uid gid st store now path = (g, st4)) :
    st2.readdir_file_cache.keys ⊆
      _normalize_path path :: st.readdir_file_cache.keys ∧
    st2.readdir_folder_cache.keys ⊆
      _normalize_path path :: st.readdir_folder_cache.keys ∧
    st3.file_size_cache.keys ⊆
      _normalize_path path :: st.file_size_cache.keys ∧
    st3.binary_cache.map (fun e => e.1) ⊆
      _normalize_path path :: st.binary_cache.map (fun e => e.1) ∧
    st4.attr_cache.keys ⊆ path :: st.attr_cache.keys := by
  obtain ⟨files, folders, st1, hfl, hfo, hrr⟩ := readdir_cases _ _ _ _ _ _ hr
  have hfile2 := folderListing_file_cache _ _ _ _ _ _ hfo
  have hfold1 := fileListing_folder_cache _ _ _ _ _ _ hfl
  obtain ⟨h3, h4⟩ := read_keys _ _ _ _ _ _ _ _ hd
  refine ⟨?_, ?_, h3, h4, getattr_keys _ _ _ _ _ _ _ _ hg⟩
  · rw [hfile2]
    rcases fileListing_cases _ _ _ _ _ _ hfl with ⟨_, h1⟩ | ⟨_, _, h1⟩
    · rw [h1]
      exact List.subset_cons_self _ _
    · rw [h1]
      exact Cache.keys_add _ _ _ _
  · rcases folderListing_cases _ _ _ _ _ _ hfo with ⟨_, h1⟩ | ⟨_, _, h1⟩
    · rw [h1, hfold1]
      exact List.subset_cons_self _ _
    · rw [h1]
      show (st1.readdir_folder_cache.add
          (_normalize_path path) folders now).keys ⊆
        _normalize_path path :: st.readdir_folder_cache.keys
      rw [← hfold1]
      exact Cache.keys_add _ _ _ _

/-- Claim C9 witness: the amended theorem applied to the empty store at
the path `/p`, with the resulting cache states spelled out. -/
theorem C9_cache_keys_witness :
    ({ initState with
        readdir_file_cache := initState.readdir_file_cache.add "/p" [] 0
        readdir_folder_cache :=
          initState.readdir_folder_cache.add "/p" [] 0 }
      : FSState).readdir_file_cache.keys ⊆
      _normalize_path "/p" :: initState.readdir_file_cache.keys ∧
    ({ initState with
        readdir_file_cache := initState.readdir_file_cache.add "/p" [] 0
        readdir_folder_cache :=
          initState.readdir_folder_cache.add "/p" [] 0 }
      : FSState).readdir_folder_cache.keys ⊆
      _normalize_path "/p" :: initState.readdir_folder_cache.keys ∧
    ({ initState with
        binary_cache := [("/p", [])]
        file_size_cache := initState.file_size_cache.add "/p" 0 0 }
      : FSState).file_size_cache.keys ⊆
      _normalize_path "/p" :: initState.file_size_cache.keys ∧
    ({ initState with
        binary_cache := [("/p", [])]
        file_size_cache := initState.file_size_cache.add "/p" 0 0 }
      : FSState).binary_cache.map (fun e => e.1) ⊆
      _normalize_path "/p" :: initState.binary_cache.map (fun e => e.1) ∧
    ({ initState with
        attr_cache :=
          initState.attr_cache.add "/p" (CouchStatT.default 0 0) 0 }
      : FSState).attr_cache.keys ⊆ "/p" :: initState.attr_cache.keys :=
  C9_cache_keys initState emptyStore 0 "/p" 0 0 4 0
    [".", ".."]
    { initState with
        readdir_file_cache := initState.readdir_file_cache.add "/p" [] 0
        readdir_folder_cache :=
          initState.readdir_folder_cache.add "/p" [] 0 }
    (.buf [])
    { initState with
        binary_cache := [("/p", [])]
        file_size_cache := initState.file_size_cache.add "/p" 0 0 }
    (.stat (CouchStatT.default 0 0))
    { initState with
        attr_cache :=
          initState.attr_cache.add "/p" (CouchStatT.default 0 0) 0 }
    rfl rfl rfl

end CozyFuse
